import Mathlib

/-!
Shallow embedding of the matching-request lifecycle of the tortee service
(backend/routes/matching.js) together with the pieces of the storage layer
the routes rely on.  Each route handler becomes a pure function from an
explicit database state to a result and a new database state; SQL statements
become list operations over the `matching_requests` table.
-/

deriving instance DecidableEq for Except

namespace Tortee

/-- The `status` column of `matching_requests`
(enum pending | accepted | rejected | cancelled). -/
inductive Status
  | pending
  | accepted
  | rejected
  | cancelled
deriving DecidableEq, Repr

/-- One row of the `matching_requests` table.  Timestamps are modelled as
naturals (logical clock values passed in by the caller). -/
structure MRequest where
  id : Nat
  menteeId : Nat
  mentorId : Nat
  message : String
  status : Status
  createdAt : Nat
  updatedAt : Nat
deriving DecidableEq, Repr

/-- The part of a `users` row the matching routes consult
(`SELECT id FROM users WHERE id = ? AND role = ?`). -/
structure UserRow where
  id : Nat
  role : String
deriving DecidableEq, Repr

/-- Database state: the `users` table, the `matching_requests` table (in
insertion order) and the next rowid handed out by an INSERT (`this.lastID`). -/
structure DB where
  users : List UserRow
  requests : List MRequest
  nextId : Nat
deriving DecidableEq, Repr

/-- The distinct error responses produced by the matching route handlers,
one constructor per `res.status(...).json({ error: ... })` branch. -/
inductive ApiError
  | onlyMentees            -- 400 Only mentees can send matching requests
  | onlyMentors            -- 400 Only mentors can accept / reject requests
  | missingFields          -- 400 Mentor ID and message are required
  | notYourself            -- 400 You can only send requests as yourself
  | mentorNotFound         -- 404 Mentor not found
  | duplicatePair          -- 400 You have already sent a request to this mentor
  | alreadyPending         -- 400 You already have a pending request
  | requestNotFound        -- 404 Matching request not found (accept)
  | alreadyProcessed       -- 400 Request has already been processed (accept)
  | notFoundOrProcessed    -- 404 not found or already processed (reject)
  | notFoundOrCannotCancel -- 404 not found or cannot be cancelled (cancel)
  | onlyMentorsIncoming    -- 403 Only mentors can access incoming requests
  | onlyMenteesOutgoing    -- 403 Only mentees can access outgoing requests
  | retrieveFailed         -- 500 Failed to retrieve updated request
deriving DecidableEq, Repr

/-- HTTP status code each error branch responds with in matching.js. -/
def httpStatus : ApiError → Nat
  | .mentorNotFound => 404
  | .requestNotFound => 404
  | .notFoundOrProcessed => 404
  | .notFoundOrCannotCancel => 404
  | .onlyMentorsIncoming => 403
  | .onlyMenteesOutgoing => 403
  | .retrieveFailed => 500
  | _ => 400

/-- Errors of the spec taxonomy kind `NotFound` (HTTP 404 in the code). -/
def ApiError.isNotFound : ApiError → Bool
  | .mentorNotFound => true
  | .requestNotFound => true
  | .notFoundOrProcessed => true
  | .notFoundOrCannotCancel => true
  | _ => false

/-- Errors of the spec taxonomy kind `Conflict` (duplicate request, second
pending request, wrong source state). -/
def ApiError.isConflict : ApiError → Bool
  | .duplicatePair => true
  | .alreadyPending => true
  | .alreadyProcessed => true
  | _ => false

/-- One SQL `UPDATE matching_requests SET status = s WHERE pred` over the
table.  The `createUpdateTriggerRequests` trigger in models/database.js
(AFTER UPDATE ON matching_requests, SET updated_at = CURRENT_TIMESTAMP
WHERE id = NEW.id) fires once per updated row, so each row the UPDATE
rewrites also gets `updatedAt := now`.  `updFun` is the effect on one
row. -/
def updFun (now : Nat) (pred : MRequest → Bool) (s : Status) (r : MRequest) :
    MRequest :=
  if pred r then { r with status := s, updatedAt := now } else r

/-- The UPDATE applied to the whole table. -/
def sqlUpdateStatus (now : Nat) (pred : MRequest → Bool) (s : Status)
    (l : List MRequest) : List MRequest :=
  l.map (updFun now pred s)

/-- `this.changes` of a conditional UPDATE: the number of rows matching the
WHERE clause. -/
def sqlChanges (pred : MRequest → Bool) (l : List MRequest) : Nat :=
  l.countP pred

/-- JavaScript falsiness of an optional numeric field (`!mentorId`). -/
def falsyNat : Option Nat → Bool
  | none => true
  | some n => n == 0

/-- JavaScript falsiness of an optional string field (`!message`). -/
def falsyStr : Option String → Bool
  | none => true
  | some s => s == ""

/-- Lines 91-98 of matching.js: if `menteeId` is supplied (truthy) it must
equal the authenticated user's id, otherwise the authenticated id is used. -/
def menteeIdCheck (authId : Nat) : Option Nat → Except ApiError Nat
  | some m =>
    if m != 0 then
      if authId != m then .error .notYourself else .ok m
    else .ok authId
  | none => .ok authId

/-- `POST /match-requests` (matching.js lines 73-178): role check, field
check, menteeId defaulting, mentor existence, duplicate-pair check,
one-pending check, then INSERT.  Per the matching_requests schema in
models/database.js the fresh row defaults to status `pending` with
`created_at`/`updated_at` set at insertion time, and gets the next
AUTOINCREMENT rowid (`this.lastID`). -/
def createReq (now : Nat) (auth : UserRow) (mentorId? menteeId? : Option Nat)
    (message? : Option String) (db : DB) : Except ApiError MRequest × DB :=
  if auth.role != "mentee" then (.error .onlyMentees, db)
  else if falsyNat mentorId? || falsyStr message? then (.error .missingFields, db)
  else
    match menteeIdCheck auth.id menteeId? with
    | .error e => (.error e, db)
    | .ok finalMenteeId =>
      if (db.users.find? fun u =>
          u.id == mentorId?.getD 0 && u.role == "mentor").isNone then
        (.error .mentorNotFound, db)
      else if (db.requests.find? fun r =>
          r.menteeId == finalMenteeId && r.mentorId == mentorId?.getD 0).isSome then
        (.error .duplicatePair, db)
      else if (db.requests.find? fun r =>
          r.menteeId == finalMenteeId && r.status == Status.pending).isSome then
        (.error .alreadyPending, db)
      else
        (.ok { id := db.nextId, menteeId := finalMenteeId,
               mentorId := mentorId?.getD 0, message := message?.getD "",
               status := Status.pending, createdAt := now, updatedAt := now },
         { db with
           requests := db.requests ++
             [{ id := db.nextId, menteeId := finalMenteeId,
                mentorId := mentorId?.getD 0, message := message?.getD "",
                status := Status.pending, createdAt := now, updatedAt := now }],
           nextId := db.nextId + 1 })

/-- WHERE clause of the cascade UPDATE in accept:
`mentor_id = ? AND id != ? AND status = 'pending'`. -/
def cascadePred (mid rid : Nat) (q : MRequest) : Bool :=
  q.mentorId == mid && q.id != rid && q.status == Status.pending

/-- The table after accept's transaction: the target row set to `accepted`,
then every other pending row of the same mentor set to `rejected`. -/
def acceptUpdated (now : Nat) (mid rid : Nat) (l : List MRequest) :
    List MRequest :=
  sqlUpdateStatus now (cascadePred mid rid) Status.rejected
    (sqlUpdateStatus now (fun q => q.id == rid) Status.accepted l)

/-- The combined effect of accept's two UPDATEs on one row: the target row
(id = rid) becomes `accepted`; any other pending row of the mentor becomes
`rejected`; everything else is untouched. -/
def acceptRow (now : Nat) (mid rid : Nat) (q : MRequest) : MRequest :=
  if q.id == rid then { q with status := Status.accepted, updatedAt := now }
  else if q.mentorId == mid && q.status == Status.pending then
    { q with status := Status.rejected, updatedAt := now }
  else q

/-- `PUT /match-requests/:id/accept` (matching.js lines 368-476): role check,
SELECT by id and mentor, pending check, then one transaction doing
`UPDATE ... SET status='accepted' WHERE id = ?` and
`UPDATE ... SET status='rejected' WHERE mentor_id = ? AND id != ? AND
status='pending'`, then re-SELECT of the accepted row. -/
def accept (now : Nat) (auth : UserRow) (rid : Nat) (db : DB) :
    Except ApiError MRequest × DB :=
  if auth.role != "mentor" then (.error .onlyMentors, db)
  else
    match db.requests.find? (fun r => r.id == rid && r.mentorId == auth.id) with
    | none => (.error .requestNotFound, db)
    | some r =>
      if r.status != Status.pending then (.error .alreadyProcessed, db)
      else
        match (acceptUpdated now auth.id rid db.requests).find?
            (fun q => q.id == rid) with
        | some u =>
          (.ok u, { db with requests := acceptUpdated now auth.id rid db.requests })
        | none =>
          (.error .retrieveFailed,
           { db with requests := acceptUpdated now auth.id rid db.requests })

/-- WHERE clause of reject's conditional UPDATE:
`id = ? AND mentor_id = ? AND status = 'pending'`. -/
def rejectPred (rid mid : Nat) (q : MRequest) : Bool :=
  q.id == rid && q.mentorId == mid && q.status == Status.pending

/-- `PUT /match-requests/:id/reject` (matching.js lines 504-564): role check,
then the conditional `UPDATE ... SET status='rejected' WHERE id = ? AND
mentor_id = ? AND status='pending'`; zero affected rows is a 404, otherwise
the updated row is re-SELECTed and returned. -/
def reject (now : Nat) (auth : UserRow) (rid : Nat) (db : DB) :
    Except ApiError MRequest × DB :=
  if auth.role != "mentor" then (.error .onlyMentors, db)
  else
    if sqlChanges (rejectPred rid auth.id) db.requests == 0 then
      (.error .notFoundOrProcessed,
       { db with requests := (sqlUpdateStatus now (rejectPred rid auth.id)
          Status.rejected db.requests) })
    else
      match (sqlUpdateStatus now (rejectPred rid auth.id) Status.rejected
          db.requests).find? (fun q => q.id == rid) with
      | some u =>
        (.ok u,
         { db with requests := (sqlUpdateStatus now (rejectPred rid auth.id)
            Status.rejected db.requests) })
      | none =>
        (.error .retrieveFailed,
         { db with requests := (sqlUpdateStatus now (rejectPred rid auth.id)
            Status.rejected db.requests) })

/-- `DELETE /match-requests/:id` (matching.js lines 592-652): role check,
then the conditional `UPDATE ... SET status='cancelled' WHERE id = ? AND
mentee_id = ? AND status='pending'`; zero affected rows is a 404, otherwise
the updated row is re-SELECTed and returned. -/
def cancelPred (rid mid : Nat) (q : MRequest) : Bool :=
  q.id == rid && q.menteeId == mid && q.status == Status.pending

/-- The cancel route handler itself (see the doc comment above
`cancelPred`). -/
def cancel (now : Nat) (auth : UserRow) (rid : Nat) (db : DB) :
    Except ApiError MRequest × DB :=
  if auth.role != "mentee" then (.error .onlyMentees, db)
  else
    if sqlChanges (cancelPred rid auth.id) db.requests == 0 then
      (.error .notFoundOrCannotCancel,
       { db with requests := (sqlUpdateStatus now (cancelPred rid auth.id)
          Status.cancelled db.requests) })
    else
      match (sqlUpdateStatus now (cancelPred rid auth.id) Status.cancelled
          db.requests).find? (fun q => q.id == rid) with
      | some u =>
        (.ok u,
         { db with requests := (sqlUpdateStatus now (cancelPred rid auth.id)
            Status.cancelled db.requests) })
      | none =>
        (.error .retrieveFailed,
         { db with requests := (sqlUpdateStatus now (cancelPred rid auth.id)
            Status.cancelled db.requests) })

/-- `ORDER BY mr.created_at DESC`: newest first. -/
def newerFirst (a b : MRequest) : Prop :=
  b.createdAt ≤ a.createdAt

instance : DecidableRel newerFirst := fun a b =>
  Nat.decLe b.createdAt a.createdAt

instance : IsTotal MRequest newerFirst :=
  ⟨fun a b => Nat.le_total b.createdAt a.createdAt⟩

instance : IsTrans MRequest newerFirst :=
  ⟨fun _ _ _ h1 h2 => Nat.le_trans h2 h1⟩

/-- The rows of `SELECT ... ORDER BY created_at DESC`. -/
def sortNewestFirst (l : List MRequest) : List MRequest :=
  l.insertionSort newerFirst

/-- Does a row pass the optional `status` query filter
(`if (status) query += ' AND mr.status = ?'`)? -/
def statusFilterOk (statusFilter : Option Status) (r : MRequest) : Bool :=
  match statusFilter with
  | some s => r.status == s
  | none => true

/-- The rows selected by `GET /match-requests/outgoing` (matching.js lines
293-340) before JSON serialisation: `WHERE mr.mentee_id = ?` plus the
optional status filter, newest first. -/
def rowsOutgoing (auth : UserRow) (statusFilter : Option Status) (db : DB) :
    Except ApiError (List MRequest) :=
  if auth.role != "mentee" then .error .onlyMenteesOutgoing
  else .ok (sortNewestFirst (db.requests.filter fun r =>
    r.menteeId == auth.id && statusFilterOk statusFilter r))

/-- The rows selected by `GET /match-requests/incoming` (matching.js lines
213-261). -/
def rowsIncoming (auth : UserRow) (statusFilter : Option Status) (db : DB) :
    Except ApiError (List MRequest) :=
  if auth.role != "mentor" then .error .onlyMentorsIncoming
  else .ok (sortNewestFirst (db.requests.filter fun r =>
    r.mentorId == auth.id && statusFilterOk statusFilter r))

/-- A JSON scalar appearing in the list responses. -/
inductive JValue
  | num (n : Nat)
  | str (s : String)
deriving DecidableEq, Repr

/-- The TEXT stored for each status value. -/
def statusText : Status → String
  | .pending => "pending"
  | .accepted => "accepted"
  | .rejected => "rejected"
  | .cancelled => "cancelled"

/-- The JSON object emitted per row by the outgoing list (matching.js lines
329-334): `{ id, mentorId, menteeId, status }` — and nothing else. -/
def outgoingItem (r : MRequest) : List (String × JValue) :=
  [("id", .num r.id), ("mentorId", .num r.mentorId),
   ("menteeId", .num r.menteeId), ("status", .str (statusText r.status))]

/-- The JSON object emitted per row by the incoming list (matching.js lines
249-255): `{ id, mentorId, menteeId, message, status }`. -/
def incomingItem (r : MRequest) : List (String × JValue) :=
  [("id", .num r.id), ("mentorId", .num r.mentorId),
   ("menteeId", .num r.menteeId), ("message", .str r.message),
   ("status", .str (statusText r.status))]

/-- `GET /match-requests/outgoing`: the serialised response body. -/
def listOutgoing (auth : UserRow) (statusFilter : Option Status) (db : DB) :
    Except ApiError (List (List (String × JValue))) :=
  match rowsOutgoing auth statusFilter db with
  | .error e => .error e
  | .ok rows => .ok (rows.map outgoingItem)

/-- `GET /match-requests/incoming`: the serialised response body. -/
def listIncoming (auth : UserRow) (statusFilter : Option Status) (db : DB) :
    Except ApiError (List (List (String × JValue))) :=
  match rowsIncoming auth statusFilter db with
  | .error e => .error e
  | .ok rows => .ok (rows.map incomingItem)

/-- One atomic API call against the store (the lists are read-only and do
not appear).  Errors leave the visible state unchanged, so the relation is
total in the arguments. -/
inductive Step : DB → DB → Prop
  | createS (now : Nat) (auth : UserRow) (m? me? : Option Nat)
      (msg? : Option String) (db : DB) :
      Step db (createReq now auth m? me? msg? db).2
  | acceptS (now : Nat) (auth : UserRow) (rid : Nat) (db : DB) :
      Step db (accept now auth rid db).2
  | rejectS (now : Nat) (auth : UserRow) (rid : Nat) (db : DB) :
      Step db (reject now auth rid db).2
  | cancelS (now : Nat) (auth : UserRow) (rid : Nat) (db : DB) :
      Step db (cancel now auth rid db).2

/-- The store at service start: any set of users, no matching requests. -/
def initDB (users : List UserRow) (nid : Nat) : DB :=
  { users := users, requests := [], nextId := nid }

/-- States reachable by a sequence of API calls from an initial store. -/
def Reachable (db : DB) : Prop :=
  ∃ users nid, Relation.ReflTransGen Step (initDB users nid) db

/-- Number of `pending` rows belonging to mentee `m`. -/
def pendingCount (db : DB) (m : Nat) : Nat :=
  db.requests.countP fun r => r.menteeId == m && r.status == Status.pending

/-- Number of rows for a given (mentee, mentor) pair, any status. -/
def pairCount (db : DB) (m t : Nat) : Nat :=
  db.requests.countP fun r => r.menteeId == m && r.mentorId == t

/-- Invariant: at most one pending request per mentee. -/
def onePendingPerMentee (db : DB) : Prop :=
  ∀ m, pendingCount db m ≤ 1

/-- Invariant: at most one request ever per (mentee, mentor) pair. -/
def onePerPair (db : DB) : Prop :=
  ∀ m t, pairCount db m t ≤ 1

/-!
Fine-grained model of `POST /match-requests` for the concurrency analysis.
The handler runs its SQL statements as four separate awaited calls with no
enclosing transaction (matching.js lines 100-161), so between any two of
them the event loop may schedule another in-flight request.  Each statement
below is the same query `createReq` issues, split at the await points.
-/

/-- The arguments of one in-flight `POST /match-requests` call (role and
payload checks already passed; they do not touch the store). -/
structure CreateCall where
  auth : UserRow
  mentorId : Nat
  message : String
deriving DecidableEq, Repr

/-- Progress of one in-flight create: `pc` = 0 mentor check, 1 duplicate
check, 2 pending check, 3 INSERT, 4 responded; `failed` holds the error
response once one is sent. -/
structure ThreadState where
  call : CreateCall
  pc : Nat
  failed : Option ApiError
deriving DecidableEq, Repr

/-- Execute the next awaited SQL statement of one in-flight create.  The
queries are those of `createReq` with `finalMenteeId = auth.id`. -/
def microStep (now : Nat) (db : DB) (t : ThreadState) : DB × ThreadState :=
  if t.failed.isSome then (db, t)
  else
    match t.pc with
    | 0 =>
      if (db.users.find? fun u =>
          u.id == t.call.mentorId && u.role == "mentor").isNone then
        (db, { t with failed := some .mentorNotFound, pc := 4 })
      else (db, { t with pc := 1 })
    | 1 =>
      if (db.requests.find? fun r =>
          r.menteeId == t.call.auth.id && r.mentorId == t.call.mentorId).isSome then
        (db, { t with failed := some .duplicatePair, pc := 4 })
      else (db, { t with pc := 2 })
    | 2 =>
      if (db.requests.find? fun r =>
          r.menteeId == t.call.auth.id && r.status == Status.pending).isSome then
        (db, { t with failed := some .alreadyPending, pc := 4 })
      else (db, { t with pc := 3 })
    | 3 =>
      let newRec : MRequest :=
        { id := db.nextId, menteeId := t.call.auth.id,
          mentorId := t.call.mentorId, message := t.call.message,
          status := Status.pending, createdAt := now, updatedAt := now }
      ({ db with requests := db.requests ++ [newRec], nextId := db.nextId + 1 },
       { t with pc := 4 })
    | _ => (db, t)

/-- Run two in-flight creates under a schedule: `true` steps thread A,
`false` steps thread B. -/
def runSched (now : Nat) : List Bool → DB × ThreadState × ThreadState →
    DB × ThreadState × ThreadState
  | [], s => s
  | b :: rest, (db, ta, tb) =>
    if b then
      let s := microStep now db ta
      runSched now rest (s.1, s.2, tb)
    else
      let s := microStep now db tb
      runSched now rest (s.1, ta, s.2)

/-- A fresh thread for a create call. -/
def startThread (auth : UserRow) (mentorId : Nat) (message : String) :
    ThreadState :=
  { call := { auth := auth, mentorId := mentorId, message := message },
    pc := 0, failed := none }

/-- Did the in-flight create finish with a success response? -/
def succeeded (t : ThreadState) : Bool :=
  t.pc == 4 && t.failed.isNone

/-- A per-row table transformation that only ever touches `status` and
`updatedAt`, stamping `updatedAt := now` whenever it rewrites a row. -/
def StatusWrite (now : Nat) (f : MRequest → MRequest) : Prop :=
  ∀ q, (f q).id = q.id ∧ (f q).menteeId = q.menteeId ∧
    (f q).mentorId = q.mentorId ∧ (f q).message = q.message ∧
    (f q).createdAt = q.createdAt ∧ (f q = q ∨ (f q).updatedAt = now)

/-! ### Concrete stores used to evaluate the operations -/

/-- A mentee with id 5. -/
def mentee5 : UserRow := ⟨5, "mentee"⟩

/-- A second mentee with id 3. -/
def mentee3 : UserRow := ⟨3, "mentee"⟩

/-- A mentor with id 9. -/
def mentor9 : UserRow := ⟨9, "mentor"⟩

/-- A request from mentee 5 to mentor 9 that is already cancelled. -/
def recCancelled : MRequest := ⟨1, 5, 9, "hi", Status.cancelled, 0, 0⟩

/-- A store holding only `recCancelled`. -/
def dbCancelled : DB := ⟨[mentee5, mentor9], [recCancelled], 2⟩

/-- A pending request from mentee 5 to mentor 9. -/
def recPending : MRequest := ⟨1, 5, 9, "hi", Status.pending, 0, 0⟩

/-- A store holding only `recPending`. -/
def dbPending : DB := ⟨[mentee5, mentor9], [recPending], 2⟩

/-- Like `dbPending` but with a second mentor (id 8) registered. -/
def dbTwoMentors : DB := ⟨[mentee5, mentor9, ⟨8, "mentor"⟩], [recPending], 2⟩

/-- A pending request owned by mentee 2, not by the acting mentee 3. -/
def recForeign : MRequest := ⟨1, 2, 9, "hi", Status.pending, 0, 0⟩

/-- A store holding only `recForeign`. -/
def dbForeign : DB := ⟨[⟨2, "mentee"⟩, mentee3, mentor9], [recForeign], 2⟩

/-- A pending request carrying the message "hello". -/
def recHello : MRequest := ⟨1, 5, 9, "hello", Status.pending, 3, 3⟩

/-- A store holding only `recHello`. -/
def dbHello : DB := ⟨[mentee5, mentor9], [recHello], 2⟩

/-- A store with no requests yet. -/
def dbEmpty : DB := ⟨[mentee5, mentor9], [], 1⟩

/-- Mentor 9 holds two pending requests (ids 1, 2); a third pending request
(id 3) belongs to another mentor (id 4). -/
def dbAccept : DB := ⟨[mentor9],
  [⟨1, 1, 9, "a", Status.pending, 0, 0⟩,
   ⟨2, 2, 9, "b", Status.pending, 1, 1⟩,
   ⟨3, 3, 4, "c", Status.pending, 2, 2⟩], 4⟩

/-- Row 2 of `dbAccept` before accepting request 1. -/
def rowB : MRequest := ⟨2, 2, 9, "b", Status.pending, 1, 1⟩

/-- Row 2 of `dbAccept` after accepting request 1 at time 7. -/
def rowBrej : MRequest := ⟨2, 2, 9, "b", Status.rejected, 1, 7⟩

/-- Store for the double-create race: mentee 1, mentors 2 and 3, no rows. -/
def dbRace : DB := ⟨[⟨1, "mentee"⟩, ⟨2, "mentor"⟩, ⟨3, "mentor"⟩], [], 1⟩

/-- In-flight create of mentee 1 toward mentor 2. -/
def threadA : ThreadState := startThread ⟨1, "mentee"⟩ 2 "a"

/-- In-flight create of mentee 1 toward mentor 3. -/
def threadB : ThreadState := startThread ⟨1, "mentee"⟩ 3 "b"

/-- Interleaving where both creates run all three checks before either
INSERT executes. -/
def raceSched : List Bool := [true, true, true, false, false, false, true, false]

/-- Fully serialized schedule: thread A finishes before thread B starts. -/
def serialSched : List Bool := [true, true, true, true, false, false, false, false]

/-- `recPending` after a successful cancel at time 10. -/
def recPendingCancelled : MRequest := ⟨1, 5, 9, "hi", Status.cancelled, 0, 10⟩

/-- The store produced by cancelling `recPending` at time 10. -/
def dbPendingAfter : DB := ⟨[mentee5, mentor9], [recPendingCancelled], 2⟩

/-- Row 1 of `dbAccept` after mentor 9 accepts request 1 at time 7. -/
def rowAcc : MRequest := ⟨1, 1, 9, "a", Status.accepted, 0, 7⟩

/-- The store produced by accepting request 1 of `dbAccept` at time 7. -/
def dbAccepted : DB := ⟨[mentor9],
  [rowAcc, rowBrej, ⟨3, 3, 4, "c", Status.pending, 2, 2⟩], 4⟩

/-! ### Helper lemmas -/

lemma updFun_fields (now : Nat) (pred : MRequest → Bool) (s : Status)
    (r : MRequest) :
    (updFun now pred s r).id = r.id ∧
    (updFun now pred s r).menteeId = r.menteeId ∧
    (updFun now pred s r).mentorId = r.mentorId ∧
    (updFun now pred s r).message = r.message ∧
    (updFun now pred s r).createdAt = r.createdAt := by
  unfold updFun
  split <;> simp

lemma statusWrite_updFun (now : Nat) (pred : MRequest → Bool) (s : Status) :
    StatusWrite now (updFun now pred s) := by
  intro q
  refine ⟨(updFun_fields now pred s q).1, (updFun_fields now pred s q).2.1,
    (updFun_fields now pred s q).2.2.1, (updFun_fields now pred s q).2.2.2.1,
    (updFun_fields now pred s q).2.2.2.2, ?_⟩
  unfold updFun
  split
  · exact Or.inr rfl
  · exact Or.inl rfl

lemma statusWrite_id (now : Nat) : StatusWrite now id := by
  intro q
  exact ⟨rfl, rfl, rfl, rfl, rfl, Or.inl rfl⟩

lemma statusWrite_comp {now : Nat} {f g : MRequest → MRequest}
    (hf : StatusWrite now f) (hg : StatusWrite now g) :
    StatusWrite now (g ∘ f) := by
  intro q
  obtain ⟨f1, f2, f3, f4, f5, f6⟩ := hf q
  obtain ⟨g1, g2, g3, g4, g5, g6⟩ := hg (f q)
  refine ⟨by simpa [f1] using g1, by simpa [f2] using g2,
    by simpa [f3] using g3, by simpa [f4] using g4,
    by simpa [f5] using g5, ?_⟩
  rcases g6 with hgq | hgq
  · rcases f6 with hfq | hfq
    · exact Or.inl (by rw [Function.comp_apply, hgq, hfq])
    · exact Or.inr (by simpa [Function.comp, hgq] using hfq)
  · exact Or.inr hgq

lemma sqlUpdateStatus_eq_self {now : Nat} {pred : MRequest → Bool} {s : Status}
    {l : List MRequest} (h : ∀ r ∈ l, pred r = false) :
    sqlUpdateStatus now pred s l = l := by
  unfold sqlUpdateStatus
  conv_rhs => rw [← List.map_id l]
  exact List.map_congr_left fun r hr => by simp [updFun, h r hr]

lemma DB.mk_requests_self (db : DB) :
    { db with requests := db.requests } = db := rfl

lemma countP_update_le_of_ne (now : Nat) (pred : MRequest → Bool) (s : Status)
    (hs : s ≠ Status.pending) (l : List MRequest) (m : Nat) :
    (sqlUpdateStatus now pred s l).countP
        (fun r => r.menteeId == m && r.status == Status.pending) ≤
      l.countP (fun r => r.menteeId == m && r.status == Status.pending) := by
  unfold sqlUpdateStatus
  rw [List.countP_map]
  apply List.countP_mono_left
  intro r _ h
  simp only [Function.comp, updFun] at h
  by_cases hp : pred r = true
  · rw [if_pos hp] at h
    simp only [Bool.and_eq_true, beq_iff_eq] at h
    exact absurd h.2 hs
  · rwa [if_neg (by simpa using hp)] at h

lemma countP_pair_update (now : Nat) (pred : MRequest → Bool) (s : Status)
    (l : List MRequest) (m t : Nat) :
    (sqlUpdateStatus now pred s l).countP
        (fun r => r.menteeId == m && r.mentorId == t) =
      l.countP (fun r => r.menteeId == m && r.mentorId == t) := by
  unfold sqlUpdateStatus
  rw [List.countP_map]
  apply List.countP_congr
  intro r _
  simp only [Function.comp, updFun]
  split <;> simp

lemma countP_append_single (p : MRequest → Bool) (l : List MRequest)
    (x : MRequest) :
    (l ++ [x]).countP p = l.countP p + if p x then 1 else 0 := by
  rw [List.countP_append]
  simp [List.countP_cons]

lemma nodup_id_unique {l : List MRequest} (hnd : (l.map MRequest.id).Nodup)
    {a b : MRequest} (ha : a ∈ l) (hb : b ∈ l) (hid : a.id = b.id) : a = b := by
  exact List.inj_on_of_nodup_map hnd ha hb hid

lemma accept_requests_cases (now : Nat) (auth : UserRow) (rid : Nat)
    (db : DB) :
    (accept now auth rid db).2.requests = db.requests ∨
    (accept now auth rid db).2.requests =
      acceptUpdated now auth.id rid db.requests := by
  unfold accept
  split
  · exact Or.inl rfl
  · split
    · exact Or.inl rfl
    · split
      · exact Or.inl rfl
      · split
        · exact Or.inr rfl
        · exact Or.inr rfl

lemma reject_requests_cases (now : Nat) (auth : UserRow) (rid : Nat)
    (db : DB) :
    (reject now auth rid db).2.requests = db.requests ∨
    (reject now auth rid db).2.requests =
      sqlUpdateStatus now (rejectPred rid auth.id) Status.rejected
        db.requests := by
  unfold reject
  split
  · exact Or.inl rfl
  · split
    · exact Or.inr rfl
    · split
      · exact Or.inr rfl
      · exact Or.inr rfl

lemma cancel_requests_cases (now : Nat) (auth : UserRow) (rid : Nat)
    (db : DB) :
    (cancel now auth rid db).2.requests = db.requests ∨
    (cancel now auth rid db).2.requests =
      sqlUpdateStatus now (cancelPred rid auth.id) Status.cancelled
        db.requests := by
  unfold cancel
  split
  · exact Or.inl rfl
  · split
    · exact Or.inr rfl
    · split
      · exact Or.inr rfl
      · exact Or.inr rfl

lemma accept_statusWrite (now : Nat) (auth : UserRow) (rid : Nat) (db : DB) :
    ∃ f, StatusWrite now f ∧
      (accept now auth rid db).2.requests = db.requests.map f := by
  rcases accept_requests_cases now auth rid db with h | h
  · exact ⟨id, statusWrite_id now, by simpa using h⟩
  · refine ⟨updFun now (cascadePred auth.id rid) Status.rejected ∘
        updFun now (fun q => q.id == rid) Status.accepted,
      statusWrite_comp (statusWrite_updFun now _ _) (statusWrite_updFun now _ _),
      ?_⟩
    rw [h]
    unfold acceptUpdated sqlUpdateStatus
    rw [List.map_map]

lemma reject_statusWrite (now : Nat) (auth : UserRow) (rid : Nat) (db : DB) :
    ∃ f, StatusWrite now f ∧
      (reject now auth rid db).2.requests = db.requests.map f := by
  rcases reject_requests_cases now auth rid db with h | h
  · exact ⟨id, statusWrite_id now, by simpa using h⟩
  · exact ⟨updFun now (rejectPred rid auth.id) Status.rejected,
      statusWrite_updFun now _ _, h⟩

lemma cancel_statusWrite (now : Nat) (auth : UserRow) (rid : Nat) (db : DB) :
    ∃ f, StatusWrite now f ∧
      (cancel now auth rid db).2.requests = db.requests.map f := by
  rcases cancel_requests_cases now auth rid db with h | h
  · exact ⟨id, statusWrite_id now, by simpa using h⟩
  · exact ⟨updFun now (cancelPred rid auth.id) Status.cancelled,
      statusWrite_updFun now _ _, h⟩

lemma createReq_cases (now : Nat) (auth : UserRow) (m? me? : Option Nat)
    (msg? : Option String) (db : DB) :
    (createReq now auth m? me? msg? db).2 = db ∨
    ∃ r, (createReq now auth m? me? msg? db).1 = .ok r ∧
      r.status = Status.pending ∧ r.id = db.nextId ∧
      (db.requests.find? fun q =>
        q.menteeId == r.menteeId && q.mentorId == r.mentorId) = none ∧
      (db.requests.find? fun q =>
        q.menteeId == r.menteeId && q.status == Status.pending) = none ∧
      (createReq now auth m? me? msg? db).2 =
        { db with requests := db.requests ++ [r], nextId := db.nextId + 1 } := by
  unfold createReq
  split
  · exact Or.inl rfl
  · split
    · exact Or.inl rfl
    · split
      · exact Or.inl rfl
      · rename_i finalMenteeId hme
        split
        · exact Or.inl rfl
        · split
          · exact Or.inl rfl
          · rename_i hdup
            split
            · exact Or.inl rfl
            · rename_i hpend
              refine Or.inr ⟨_, rfl, rfl, rfl, ?_, ?_, rfl⟩
              · exact Option.not_isSome_iff_eq_none.mp hdup
              · exact Option.not_isSome_iff_eq_none.mp hpend

lemma acceptUpdated_pending_le (now : Nat) (mid rid : Nat)
    (l : List MRequest) (m : Nat) :
    (acceptUpdated now mid rid l).countP
        (fun r => r.menteeId == m && r.status == Status.pending) ≤
      l.countP (fun r => r.menteeId == m && r.status == Status.pending) := by
  unfold acceptUpdated
  exact Nat.le_trans
    (countP_update_le_of_ne now _ Status.rejected (by simp) _ m)
    (countP_update_le_of_ne now _ Status.accepted (by simp) _ m)

lemma step_preserves_onePending {db db' : DB} (h : Step db db')
    (hinv : onePendingPerMentee db) : onePendingPerMentee db' := by
  cases h with
  | createS now auth m? me? msg? db =>
    rcases createReq_cases now auth m? me? msg? db with
      h2 | ⟨r, _, hstat, _, _, hfindpend, h2⟩
    · rw [h2]; exact hinv
    · intro m
      unfold pendingCount
      rw [h2]
      dsimp only
      rw [countP_append_single]
      by_cases hm : r.menteeId = m
      · have h0 : db.requests.countP
            (fun q => q.menteeId == m && q.status == Status.pending) = 0 := by
          rw [List.countP_eq_zero]
          intro a ha
          have h3 := List.find?_eq_none.mp hfindpend a ha
          simpa [hm] using h3
        rw [h0]
        split <;> simp
      · have hr : (r.menteeId == m && r.status == Status.pending) = false := by
          simp [hm]
        rw [hr]
        simpa using hinv m
  | acceptS now auth rid db =>
    intro m
    unfold pendingCount
    rcases accept_requests_cases now auth rid db with h2 | h2
    · rw [h2]; exact hinv m
    · rw [h2]
      exact Nat.le_trans (acceptUpdated_pending_le now auth.id rid db.requests m)
        (hinv m)
  | rejectS now auth rid db =>
    intro m
    unfold pendingCount
    rcases reject_requests_cases now auth rid db with h2 | h2
    · rw [h2]; exact hinv m
    · rw [h2]
      exact Nat.le_trans
        (countP_update_le_of_ne now _ Status.rejected (by simp) _ m) (hinv m)
  | cancelS now auth rid db =>
    intro m
    unfold pendingCount
    rcases cancel_requests_cases now auth rid db with h2 | h2
    · rw [h2]; exact hinv m
    · rw [h2]
      exact Nat.le_trans
        (countP_update_le_of_ne now _ Status.cancelled (by simp) _ m) (hinv m)

lemma reachable_onePending {db : DB} (h : Reachable db) :
    onePendingPerMentee db := by
  obtain ⟨users, nid, hsteps⟩ := h
  induction hsteps with
  | refl => intro m; simp [pendingCount, initDB]
  | tail _ hstep ih => exact step_preserves_onePending hstep ih

lemma acceptUpdated_pair_eq (now : Nat) (mid rid : Nat)
    (l : List MRequest) (m t : Nat) :
    (acceptUpdated now mid rid l).countP
        (fun r => r.menteeId == m && r.mentorId == t) =
      l.countP (fun r => r.menteeId == m && r.mentorId == t) := by
  unfold acceptUpdated
  rw [countP_pair_update, countP_pair_update]

lemma step_preserves_onePerPair {db db' : DB} (h : Step db db')
    (hinv : onePerPair db) : onePerPair db' := by
  cases h with
  | createS now auth m? me? msg? db =>
    rcases createReq_cases now auth m? me? msg? db with
      h2 | ⟨r, _, _, _, hfinddup, _, h2⟩
    · rw [h2]; exact hinv
    · intro m t
      unfold pairCount
      rw [h2]
      dsimp only
      rw [countP_append_single]
      by_cases hm : r.menteeId = m ∧ r.mentorId = t
      · have h0 : db.requests.countP
            (fun q => q.menteeId == m && q.mentorId == t) = 0 := by
          rw [List.countP_eq_zero]
          intro a ha
          have h3 := List.find?_eq_none.mp hfinddup a ha
          simpa [hm.1, hm.2] using h3
        rw [h0]
        split <;> simp
      · have hr : (r.menteeId == m && r.mentorId == t) = false := by
          rcases not_and_or.mp hm with hx | hx <;> simp [hx]
        rw [hr]
        simpa using hinv m t
  | acceptS now auth rid db =>
    intro m t
    unfold pairCount
    rcases accept_requests_cases now auth rid db with h2 | h2
    · rw [h2]; exact hinv m t
    · rw [h2, acceptUpdated_pair_eq]
      exact hinv m t
  | rejectS now auth rid db =>
    intro m t
    unfold pairCount
    rcases reject_requests_cases now auth rid db with h2 | h2
    · rw [h2]; exact hinv m t
    · rw [h2, countP_pair_update]
      exact hinv m t
  | cancelS now auth rid db =>
    intro m t
    unfold pairCount
    rcases cancel_requests_cases now auth rid db with h2 | h2
    · rw [h2]; exact hinv m t
    · rw [h2, countP_pair_update]
      exact hinv m t

lemma reachable_onePerPair {db : DB} (h : Reachable db) : onePerPair db := by
  obtain ⟨users, nid, hsteps⟩ := h
  induction hsteps with
  | refl => intro m t; simp [pairCount, initDB]
  | tail _ hstep ih => exact step_preserves_onePerPair hstep ih

lemma find?_id_map {g : MRequest → MRequest} (hg : ∀ p, (g p).id = p.id)
    (l : List MRequest) (rid : Nat) :
    (l.map g).find? (fun q => q.id == rid) =
      (l.find? (fun q => q.id == rid)).map g := by
  have hpe : ((fun q : MRequest => q.id == rid) ∘ g) =
      (fun q : MRequest => q.id == rid) := by
    funext q
    simp [Function.comp, hg]
  rw [List.find?_map, hpe]

lemma find?_id_of_mem {l : List MRequest} {q0 : MRequest} {rid : Nat}
    (hnd : (l.map MRequest.id).Nodup) (hq0 : q0 ∈ l) (hid : q0.id = rid) :
    l.find? (fun q => q.id == rid) = some q0 := by
  have hs : (l.find? (fun q => q.id == rid)).isSome :=
    List.find?_isSome.2 ⟨q0, hq0, by simp [hid]⟩
  obtain ⟨p1, hp1⟩ := Option.isSome_iff_exists.mp hs
  have hp1l := List.mem_of_find?_eq_some hp1
  have hp1id : p1.id = rid := by simpa using List.find?_some hp1
  rw [hp1, nodup_id_unique hnd hp1l hq0 (hp1id.trans hid.symm)]

lemma sqlChanges_ne_zero_iff {pred : MRequest → Bool} {l : List MRequest} :
    sqlChanges pred l ≠ 0 ↔ ∃ q ∈ l, pred q = true := by
  unfold sqlChanges
  rw [← List.countP_pos_iff]
  exact Nat.pos_iff_ne_zero.symm

lemma upd_unique_map (now : Nat) (s : Status) {pred : MRequest → Bool}
    {l : List MRequest} {rid : Nat} {q0 : MRequest}
    (hnd : (l.map MRequest.id).Nodup)
    (hpred_id : ∀ p, pred p = true → p.id = rid)
    (hq0 : q0 ∈ l) (hq0p : pred q0 = true) :
    sqlUpdateStatus now pred s l =
      (l.map fun p => if p.id == rid then
        { q0 with status := s, updatedAt := now } else p) ∧
    (sqlUpdateStatus now pred s l).find? (fun q => q.id == rid) =
      some { q0 with status := s, updatedAt := now } := by
  have hq0id : q0.id = rid := hpred_id q0 hq0p
  have hmap : sqlUpdateStatus now pred s l =
      l.map fun p => if p.id == rid then
        { q0 with status := s, updatedAt := now } else p := by
    unfold sqlUpdateStatus
    apply List.map_congr_left
    intro p hp
    by_cases hpp : pred p = true
    · have hpid : p.id = rid := hpred_id p hpp
      have hpq : p = q0 :=
        nodup_id_unique hnd hp hq0 (hpid.trans hq0id.symm)
      subst hpq
      simp [updFun, hpp, hpid]
    · have hpid : p.id ≠ rid := by
        intro hc
        have hpq : p = q0 :=
          nodup_id_unique hnd hp hq0 (hc.trans hq0id.symm)
        rw [hpq] at hpp
        exact hpp hq0p
      simp [updFun, hpp, hpid]
  refine ⟨hmap, ?_⟩
  rw [hmap]
  rw [find?_id_map (fun p => by
    by_cases hpid : p.id = rid
    · simp [hpid, hq0id]
    · simp [hpid])]
  rw [find?_id_of_mem hnd hq0 hq0id]
  simp [hq0id]

lemma cancel_zero_changes (now : Nat) (auth : UserRow) (rid : Nat) (db : DB)
    (hrole : auth.role = "mentee")
    (hz : sqlChanges (cancelPred rid auth.id) db.requests = 0) :
    cancel now auth rid db = (.error .notFoundOrCannotCancel, db) := by
  have hupd : sqlUpdateStatus now (cancelPred rid auth.id) Status.cancelled
      db.requests = db.requests :=
    sqlUpdateStatus_eq_self fun r hr => by
      simpa using List.countP_eq_zero.mp hz r hr
  unfold cancel
  rw [if_neg (by simp [hrole]), if_pos (by simp [hz]), hupd]

lemma reject_zero_changes (now : Nat) (auth : UserRow) (rid : Nat) (db : DB)
    (hrole : auth.role = "mentor")
    (hz : sqlChanges (rejectPred rid auth.id) db.requests = 0) :
    reject now auth rid db = (.error .notFoundOrProcessed, db) := by
  have hupd : sqlUpdateStatus now (rejectPred rid auth.id) Status.rejected
      db.requests = db.requests :=
    sqlUpdateStatus_eq_self fun r hr => by
      simpa using List.countP_eq_zero.mp hz r hr
  unfold reject
  rw [if_neg (by simp [hrole]), if_pos (by simp [hz]), hupd]

lemma cancel_ok_parts {now : Nat} {auth : UserRow} {rid : Nat} {db : DB}
    {r : MRequest} {db1 : DB}
    (h : cancel now auth rid db = (.ok r, db1)) :
    auth.role = "mentee" ∧
    sqlChanges (cancelPred rid auth.id) db.requests ≠ 0 ∧
    db1 = { db with requests := (sqlUpdateStatus now (cancelPred rid auth.id)
      Status.cancelled db.requests) } ∧
    (sqlUpdateStatus now (cancelPred rid auth.id) Status.cancelled
      db.requests).find? (fun q => q.id == rid) = some r := by
  unfold cancel at h
  split at h
  · simp at h
  · rename_i hrole
    split at h
    · simp at h
    · rename_i hch
      split at h
      · rename_i u hu
        simp only [Prod.mk.injEq, Except.ok.injEq] at h
        obtain ⟨rfl, rfl⟩ := h
        exact ⟨by simpa using hrole, by simpa using hch, rfl, hu⟩
      · simp at h

lemma reject_ok_parts {now : Nat} {auth : UserRow} {rid : Nat} {db : DB}
    {r : MRequest} {db1 : DB}
    (h : reject now auth rid db = (.ok r, db1)) :
    auth.role = "mentor" ∧
    sqlChanges (rejectPred rid auth.id) db.requests ≠ 0 ∧
    db1 = { db with requests := (sqlUpdateStatus now (rejectPred rid auth.id)
      Status.rejected db.requests) } ∧
    (sqlUpdateStatus now (rejectPred rid auth.id) Status.rejected
      db.requests).find? (fun q => q.id == rid) = some r := by
  unfold reject at h
  split at h
  · simp at h
  · rename_i hrole
    split at h
    · simp at h
    · rename_i hch
      split at h
      · rename_i u hu
        simp only [Prod.mk.injEq, Except.ok.injEq] at h
        obtain ⟨rfl, rfl⟩ := h
        exact ⟨by simpa using hrole, by simpa using hch, rfl, hu⟩
      · simp at h

lemma accept_ok_parts {now : Nat} {auth : UserRow} {rid : Nat} {db : DB}
    {r : MRequest} {db1 : DB}
    (h : accept now auth rid db = (.ok r, db1)) :
    auth.role = "mentor" ∧
    ∃ q0, db.requests.find?
        (fun x => x.id == rid && x.mentorId == auth.id) = some q0 ∧
      q0.status = Status.pending ∧
      db1 = { db with requests := acceptUpdated now auth.id rid db.requests } ∧
      (acceptUpdated now auth.id rid db.requests).find?
        (fun q => q.id == rid) = some r := by
  unfold accept at h
  split at h
  · simp at h
  · rename_i hrole0
    split at h
    · simp at h
    · rename_i q0 hq0
      split at h
      · simp at h
      · rename_i hst
        split at h
        · rename_i u hu
          simp only [Prod.mk.injEq, Except.ok.injEq] at h
          obtain ⟨rfl, rfl⟩ := h
          exact ⟨by simpa using hrole0, q0, hq0, by simpa using hst, rfl, hu⟩
        · simp at h

lemma acceptUpdated_eq_map (now : Nat) (mid rid : Nat) (l : List MRequest) :
    acceptUpdated now mid rid l = l.map (acceptRow now mid rid) := by
  unfold acceptUpdated sqlUpdateStatus
  rw [List.map_map]
  apply List.map_congr_left
  intro q _
  simp only [Function.comp_apply, updFun, acceptRow, cascadePred]
  by_cases h : q.id = rid
  · simp [h]
  · simp [h]

lemma step_pairCount_mono {db db' : DB} (h : Step db db') (m t : Nat) :
    pairCount db m t ≤ pairCount db' m t := by
  cases h with
  | createS now auth m? me? msg? db =>
    rcases createReq_cases now auth m? me? msg? db with
      h2 | ⟨r, _, _, _, _, _, h2⟩
    · rw [h2]
    · unfold pairCount
      rw [h2]
      dsimp only
      rw [countP_append_single]
      exact Nat.le_add_right _ _
  | acceptS now auth rid db =>
    unfold pairCount
    rcases accept_requests_cases now auth rid db with h2 | h2
    · rw [h2]
    · rw [h2, acceptUpdated_pair_eq]
  | rejectS now auth rid db =>
    unfold pairCount
    rcases reject_requests_cases now auth rid db with h2 | h2
    · rw [h2]
    · rw [h2, countP_pair_update]
  | cancelS now auth rid db =>
    unfold pairCount
    rcases cancel_requests_cases now auth rid db with h2 | h2
    · rw [h2]
    · rw [h2, countP_pair_update]

/-! ### Claim theorems -/

/-- C5.  The claim states that the check-pending-then-insert sequence of
create is serialized per mentee, so two concurrent creates from one mentee
toward two mentors yield exactly one success and one Conflict, and never
two simultaneous pending rows.  The handler issues its SELECTs and INSERT
as separate awaited statements with no transaction, so the interleaving
`raceSched` (both in-flight creates run all checks before either inserts)
makes both succeed and leaves two `pending` rows for mentee 1; only the
fully serialized schedule gives one success and one Conflict. -/
theorem create_race_double_pending :
    succeeded (runSched 7 raceSched (dbRace, threadA, threadB)).2.1 = true ∧
    succeeded (runSched 7 raceSched (dbRace, threadA, threadB)).2.2 = true ∧
    pendingCount (runSched 7 raceSched (dbRace, threadA, threadB)).1 1 = 2 ∧
    succeeded (runSched 7 serialSched (dbRace, threadA, threadB)).2.1 = true ∧
    (runSched 7 serialSched (dbRace, threadA, threadB)).2.2.failed =
      some ApiError.alreadyPending ∧
    pendingCount (runSched 7 serialSched (dbRace, threadA, threadB)).1 1 = 1 := by
  decide

/-- C2 (counterexample).  Cancelling the already-cancelled record
`recCancelled` owned by the acting mentee does not return the record
unchanged without error: the conditional update matches zero rows and the
route answers 404 `notFoundOrCannotCancel`.  Likewise the second of two
sequential cancels of a pending record errors instead of succeeding. -/
theorem cancel_idempotence_fails :
    cancel 10 mentee5 1 dbCancelled =
      (Except.error ApiError.notFoundOrCannotCancel, dbCancelled) ∧
    (cancel 10 mentee5 1 dbPending).1 = Except.ok recPendingCancelled ∧
    (cancel 11 mentee5 1 (cancel 10 mentee5 1 dbPending).2).1 =
      Except.error ApiError.notFoundOrCannotCancel := by
  decide

/-- C2 (amended).  Cancel is not idempotent: a cancel aimed at a record of
the acting mentee that is not `pending` (in particular one already
`cancelled`) fails with the 404 NotFound error `notFoundOrCannotCancel`
and leaves the store unchanged; cancelling a pending record twice yields
`cancelled` once and then that same NotFound error, with the store
untouched by the second call. -/
theorem cancel_nonpending_notfound :
    (∀ (now : Nat) (auth : UserRow) (rid : Nat) (db : DB) (q : MRequest),
      auth.role = "mentee" → (db.requests.map MRequest.id).Nodup →
      q ∈ db.requests → q.id = rid → q.menteeId = auth.id →
      q.status ≠ Status.pending →
      cancel now auth rid db =
        (Except.error ApiError.notFoundOrCannotCancel, db) ∧
      ApiError.notFoundOrCannotCancel.isNotFound = true) ∧
    (∀ (now1 now2 : Nat) (auth : UserRow) (rid : Nat) (db : DB)
        (r : MRequest) (db1 : DB),
      (db.requests.map MRequest.id).Nodup →
      cancel now1 auth rid db = (Except.ok r, db1) →
      r.id = rid ∧ r.status = Status.cancelled ∧
      cancel now2 auth rid db1 =
        (Except.error ApiError.notFoundOrCannotCancel, db1)) := by
  constructor
  · intro now auth rid db q hrole hnd hq hid howner hst
    refine ⟨?_, rfl⟩
    apply cancel_zero_changes now auth rid db hrole
    unfold sqlChanges
    rw [List.countP_eq_zero]
    intro p hp hpp
    unfold cancelPred at hpp
    simp only [Bool.and_eq_true, beq_iff_eq] at hpp
    have hpq : p = q := nodup_id_unique hnd hp hq (hpp.1.1.trans hid.symm)
    rw [hpq] at hpp
    exact hst hpp.2
  · intro now1 now2 auth rid db r db1 hnd h
    obtain ⟨hrole, hch, hdb1, hfind⟩ := cancel_ok_parts h
    obtain ⟨q0, hq0l, hq0p⟩ := sqlChanges_ne_zero_iff.mp hch
    have hid : ∀ p, cancelPred rid auth.id p = true → p.id = rid := by
      intro p hp
      unfold cancelPred at hp
      simp only [Bool.and_eq_true, beq_iff_eq] at hp
      exact hp.1.1
    obtain ⟨hmap, hfind2⟩ :=
      upd_unique_map now1 Status.cancelled hnd hid hq0l hq0p
    rw [hfind2] at hfind
    injection hfind with hfr
    subst hfr
    refine ⟨hid q0 hq0p, rfl, ?_⟩
    apply cancel_zero_changes now2 auth rid db1 hrole
    rw [hdb1]
    unfold sqlChanges
    rw [List.countP_eq_zero]
    intro p hp hpp
    rw [sqlUpdateStatus] at hp
    obtain ⟨p0, hp0, rfl⟩ := List.mem_map.mp hp
    by_cases hc : cancelPred rid auth.id p0 = true
    · unfold updFun at hpp
      rw [if_pos hc] at hpp
      unfold cancelPred at hpp
      simp at hpp
    · unfold updFun at hpp
      rw [if_neg (by simpa using hc)] at hpp
      exact hc hpp

/-- C2 (witness).  The amended statement evaluated on concrete stores:
cancelling the cancelled record errors with NotFound, and a pending record
cancelled twice is cancelled once and then errors. -/
theorem cancel_nonpending_notfound_witness :
    (cancel 10 mentee5 1 dbCancelled =
      (Except.error ApiError.notFoundOrCannotCancel, dbCancelled) ∧
     ApiError.notFoundOrCannotCancel.isNotFound = true) ∧
    (recPendingCancelled.id = 1 ∧
     recPendingCancelled.status = Status.cancelled ∧
     cancel 11 mentee5 1 dbPendingAfter =
       (Except.error ApiError.notFoundOrCannotCancel, dbPendingAfter)) := by
  constructor
  · exact cancel_nonpending_notfound.1 10 mentee5 1 dbCancelled recCancelled
      rfl (by decide) (by decide) rfl rfl (by decide)
  · exact cancel_nonpending_notfound.2 10 11 mentee5 1 dbPending
      recPendingCancelled dbPendingAfter (by decide) (by decide)

/-- C6 (counterexample).  The record `recForeign` exists (id 1) but belongs
to mentee 2, not to the acting mentee 3; the claim says this cancel fails
with a Forbidden or InvalidArgument error distinguished from NotFound, yet
the route answers with the 404 NotFound error `notFoundOrCannotCancel`. -/
theorem cancel_foreign_not_forbidden :
    cancel 10 mentee3 1 dbForeign =
      (Except.error ApiError.notFoundOrCannotCancel, dbForeign) ∧
    ApiError.notFoundOrCannotCancel.isNotFound = true ∧
    recForeign ∈ dbForeign.requests ∧ recForeign.id = 1 ∧
    recForeign.menteeId ≠ mentee3.id := by
  decide

/-- C6 (amended).  Cancelling a record that exists but belongs to a
different mentee fails with the same NotFound error used for a
nonexistent record (the route merges the two cases), and the store is
unchanged. -/
theorem cancel_foreign_notfound (now : Nat) (auth : UserRow) (rid : Nat)
    (db : DB) (q : MRequest)
    (hrole : auth.role = "mentee")
    (hnd : (db.requests.map MRequest.id).Nodup)
    (hq : q ∈ db.requests) (hid : q.id = rid)
    (hneq : q.menteeId ≠ auth.id) :
    cancel now auth rid db =
      (Except.error ApiError.notFoundOrCannotCancel, db) ∧
    ApiError.notFoundOrCannotCancel.isNotFound = true := by
  refine ⟨?_, rfl⟩
  apply cancel_zero_changes now auth rid db hrole
  unfold sqlChanges
  rw [List.countP_eq_zero]
  intro p hp hpp
  unfold cancelPred at hpp
  simp only [Bool.and_eq_true, beq_iff_eq] at hpp
  have hpq : p = q := nodup_id_unique hnd hp hq (hpp.1.1.trans hid.symm)
  rw [hpq] at hpp
  exact hneq hpp.1.2

/-- C6 (witness).  The amended statement evaluated on the concrete foreign
record. -/
theorem cancel_foreign_notfound_witness :
    cancel 10 mentee3 1 dbForeign =
      (Except.error ApiError.notFoundOrCannotCancel, dbForeign) ∧
    ApiError.notFoundOrCannotCancel.isNotFound = true := by
  exact cancel_foreign_notfound 10 mentee3 1 dbForeign recForeign
    rfl (by decide) (by decide) rfl (by decide)

/-- C3.  Invariant: every store reachable by a sequence of API calls has at
most one pending request per mentee; moreover a well-formed create by a
mentee who already holds a pending request (toward any mentor) is rejected
with a Conflict-kind error (the duplicate-pair or the already-pending
branch, both HTTP 400 conflicts). -/
theorem one_pending_per_mentee :
    (∀ db : DB, Reachable db → onePendingPerMentee db) ∧
    (∀ (now : Nat) (auth : UserRow) (mid : Nat) (me? : Option Nat)
        (msg : String) (db : DB) (fm : Nat),
      auth.role = "mentee" → mid ≠ 0 → msg ≠ "" →
      menteeIdCheck auth.id me? = Except.ok fm →
      (db.users.find? fun u => u.id == mid && u.role == "mentor").isSome
        = true →
      0 < pendingCount db fm →
      ∃ e, (createReq now auth (some mid) me? (some msg) db).1 =
          Except.error e ∧ e.isConflict = true) := by
  constructor
  · exact fun db h => reachable_onePending h
  · intro now auth mid me? msg db fm hrole hmid hmsg hme hmentor hpend
    obtain ⟨u, hu⟩ := Option.isSome_iff_exists.mp hmentor
    have hfalsy : (falsyNat (some mid) || falsyStr (some msg)) = false := by
      simp [falsyNat, falsyStr, hmid, hmsg]
    by_cases hdup : (db.requests.find? fun r =>
        r.menteeId == fm && r.mentorId == mid).isSome = true
    · exact ⟨.duplicatePair,
        by simp [createReq, hrole, hfalsy, hme, hu, hdup], rfl⟩
    · have hpendS : (db.requests.find? fun r =>
          r.menteeId == fm && r.status == Status.pending).isSome = true := by
        rw [List.find?_isSome]
        have hpend2 : 0 < db.requests.countP
            (fun r => r.menteeId == fm && r.status == Status.pending) := hpend
        obtain ⟨a, ha, hpa⟩ := List.countP_pos_iff.mp hpend2
        exact ⟨a, ha, hpa⟩
      exact ⟨.alreadyPending,
        by simp [createReq, hrole, hfalsy, hme, hu, hdup, hpendS], rfl⟩

/-- C3 (witness).  The invariant evaluated on a store reached by one create
step, and the Conflict on a concrete second create while a pending request
exists. -/
theorem one_pending_per_mentee_witness :
    pendingCount (createReq 4 mentee5 (some 9) none (some "hello") dbEmpty).2
      5 ≤ 1 ∧
    ∃ e, (createReq 6 mentee5 (some 8) none (some "again") dbTwoMentors).1 =
        Except.error e ∧ e.isConflict = true := by
  constructor
  · exact one_pending_per_mentee.1 _
      ⟨[mentee5, mentor9], 1,
        Relation.ReflTransGen.single
          (Step.createS 4 mentee5 (some 9) none (some "hello") dbEmpty)⟩ 5
  · exact one_pending_per_mentee.2 6 mentee5 8 none "again" dbTwoMentors 5
      rfl (by decide) (by decide) rfl (by decide) (by decide)

/-- C4.  Invariant: every reachable store has at most one record per
(menteeId, mentorId) pair in any status; no API call ever lowers the count
of records of a pair (records are never deleted); and a well-formed create
for a pair that already has a record, whatever its status, fails with the
Conflict error of the duplicate-pair branch. -/
theorem one_record_per_pair :
    (∀ db : DB, Reachable db → onePerPair db) ∧
    (∀ db db' : DB, Step db db' → ∀ m t,
      pairCount db m t ≤ pairCount db' m t) ∧
    (∀ (now : Nat) (auth : UserRow) (mid : Nat) (me? : Option Nat)
        (msg : String) (db : DB) (fm : Nat),
      auth.role = "mentee" → mid ≠ 0 → msg ≠ "" →
      menteeIdCheck auth.id me? = Except.ok fm →
      (db.users.find? fun u => u.id == mid && u.role == "mentor").isSome
        = true →
      0 < pairCount db fm mid →
      (createReq now auth (some mid) me? (some msg) db).1 =
        Except.error ApiError.duplicatePair ∧
      ApiError.duplicatePair.isConflict = true) := by
  refine ⟨fun db h => reachable_onePerPair h,
    fun db db' h m t => step_pairCount_mono h m t, ?_⟩
  intro now auth mid me? msg db fm hrole hmid hmsg hme hmentor hpair
  obtain ⟨u, hu⟩ := Option.isSome_iff_exists.mp hmentor
  have hfalsy : (falsyNat (some mid) || falsyStr (some msg)) = false := by
    simp [falsyNat, falsyStr, hmid, hmsg]
  have hdup : (db.requests.find? fun r =>
      r.menteeId == fm && r.mentorId == mid).isSome = true := by
    rw [List.find?_isSome]
    have hpair2 : 0 < db.requests.countP
        (fun r => r.menteeId == fm && r.mentorId == mid) := hpair
    obtain ⟨a, ha, hpa⟩ := List.countP_pos_iff.mp hpair2
    exact ⟨a, ha, hpa⟩
  exact ⟨by simp [createReq, hrole, hfalsy, hme, hu, hdup], rfl⟩

/-- C4 (witness).  The pair invariant on a store reached by one create
step, monotonicity of the pair count along that step, and the Conflict on
re-requesting a pair whose record is already cancelled. -/
theorem one_record_per_pair_witness :
    pairCount (createReq 4 mentee5 (some 9) none (some "hello") dbEmpty).2
      5 9 ≤ 1 ∧
    pairCount dbEmpty 5 9 ≤
      pairCount (createReq 4 mentee5 (some 9) none (some "hello") dbEmpty).2
        5 9 ∧
    (createReq 6 mentee5 (some 9) none (some "again") dbCancelled).1 =
      Except.error ApiError.duplicatePair ∧
    ApiError.duplicatePair.isConflict = true := by
  refine ⟨?_, ?_, ?_⟩
  · exact one_record_per_pair.1 _
      ⟨[mentee5, mentor9], 1,
        Relation.ReflTransGen.single
          (Step.createS 4 mentee5 (some 9) none (some "hello") dbEmpty)⟩ 5 9
  · exact one_record_per_pair.2.1 dbEmpty _
      (Step.createS 4 mentee5 (some 9) none (some "hello") dbEmpty) 5 9
  · exact one_record_per_pair.2.2 6 mentee5 9 none "again" dbCancelled 5
      rfl (by decide) (by decide) rfl (by decide) (by decide)

/-- C10.  Supplying menteeId is optional: a create whose payload omits
menteeId entirely, issued by an authenticated mentee, with a valid mentor,
a non-empty message and no conflicting records, succeeds and the created
record carries the authenticated actor's id as menteeId. -/
theorem create_defaults_menteeId (now : Nat) (auth : UserRow) (mid : Nat)
    (msg : String) (db : DB)
    (hrole : auth.role = "mentee") (hmid : mid ≠ 0) (hmsg : msg ≠ "")
    (hmentor : (db.users.find? fun u =>
      u.id == mid && u.role == "mentor").isSome = true)
    (hdup : (db.requests.find? fun r =>
      r.menteeId == auth.id && r.mentorId == mid) = none)
    (hpend : (db.requests.find? fun r =>
      r.menteeId == auth.id && r.status == Status.pending) = none) :
    (createReq now auth (some mid) none (some msg) db).1 =
      Except.ok ⟨db.nextId, auth.id, mid, msg, Status.pending, now, now⟩ := by
  obtain ⟨u, hu⟩ := Option.isSome_iff_exists.mp hmentor
  have hfalsy : (falsyNat (some mid) || falsyStr (some msg)) = false := by
    simp [falsyNat, falsyStr, hmid, hmsg]
  simp [createReq, hrole, hfalsy, menteeIdCheck, hu, hdup, hpend]

/-- C10 (witness).  A concrete create without menteeId in the payload
succeeds with menteeId 5, the id of the authenticated mentee. -/
theorem create_defaults_menteeId_witness :
    (createReq 4 mentee5 (some 9) none (some "hello") dbEmpty).1 =
      Except.ok ⟨1, 5, 9, "hello", Status.pending, 4, 4⟩ := by
  exact create_defaults_menteeId 4 mentee5 9 "hello" dbEmpty
    rfl (by decide) (by decide) (by decide) rfl rfl

lemma statusWrite_getElem {now : Nat} {f : MRequest → MRequest}
    (hf : StatusWrite now f) {l : List MRequest} {i : Nat} {r r2 : MRequest}
    (h1 : l[i]? = some r) (h2 : (l.map f)[i]? = some r2) :
    r2.id = r.id ∧ r2.menteeId = r.menteeId ∧ r2.mentorId = r.mentorId ∧
    r2.message = r.message ∧ r2.createdAt = r.createdAt ∧
    (r2.status ≠ r.status → r2.updatedAt = now) := by
  rw [List.getElem?_map, h1] at h2
  simp only [Option.map_some'] at h2
  injection h2 with h2
  subst h2
  obtain ⟨f1, f2, f3, f4, f5, f6⟩ := hf r
  refine ⟨f1, f2, f3, f4, f5, ?_⟩
  intro hst
  rcases f6 with h6 | h6
  · exact absurd (by rw [h6]) hst
  · exact h6

/-- C9.  Accept, reject and cancel (the cascade included, it is part of
accept's table update) change only the status and updatedAt columns of any
row: id, menteeId, mentorId, message and createdAt are untouched, and a row
whose status changed carries the fresh updatedAt stamp.  The updatedAt
refresh is performed by the createUpdateTriggerRequests trigger of
models/database.js, embedded in updFun. -/
theorem status_write_fields (now : Nat) (auth : UserRow) (rid : Nat)
    (db : DB) (i : Nat) (r r2 : MRequest) :
    (db.requests[i]? = some r →
      (accept now auth rid db).2.requests[i]? = some r2 →
      r2.id = r.id ∧ r2.menteeId = r.menteeId ∧ r2.mentorId = r.mentorId ∧
      r2.message = r.message ∧ r2.createdAt = r.createdAt ∧
      (r2.status ≠ r.status → r2.updatedAt = now)) ∧
    (db.requests[i]? = some r →
      (reject now auth rid db).2.requests[i]? = some r2 →
      r2.id = r.id ∧ r2.menteeId = r.menteeId ∧ r2.mentorId = r.mentorId ∧
      r2.message = r.message ∧ r2.createdAt = r.createdAt ∧
      (r2.status ≠ r.status → r2.updatedAt = now)) ∧
    (db.requests[i]? = some r →
      (cancel now auth rid db).2.requests[i]? = some r2 →
      r2.id = r.id ∧ r2.menteeId = r.menteeId ∧ r2.mentorId = r.mentorId ∧
      r2.message = r.message ∧ r2.createdAt = r.createdAt ∧
      (r2.status ≠ r.status → r2.updatedAt = now)) := by
  refine ⟨?_, ?_, ?_⟩
  · intro h1 h2
    obtain ⟨f, hf, hmap⟩ := accept_statusWrite now auth rid db
    rw [hmap] at h2
    exact statusWrite_getElem hf h1 h2
  · intro h1 h2
    obtain ⟨f, hf, hmap⟩ := reject_statusWrite now auth rid db
    rw [hmap] at h2
    exact statusWrite_getElem hf h1 h2
  · intro h1 h2
    obtain ⟨f, hf, hmap⟩ := cancel_statusWrite now auth rid db
    rw [hmap] at h2
    exact statusWrite_getElem hf h1 h2

/-- C9 (witness).  Row 2 of dbAccept is cascade-rejected by accepting
request 1 at time 7: every key field survives and updatedAt becomes 7. -/
theorem status_write_fields_witness :
    rowBrej.id = rowB.id ∧ rowBrej.menteeId = rowB.menteeId ∧
    rowBrej.mentorId = rowB.mentorId ∧ rowBrej.message = rowB.message ∧
    rowBrej.createdAt = rowB.createdAt ∧ rowBrej.updatedAt = 7 := by
  have h := (status_write_fields 7 mentor9 1 dbAccept 1 rowB rowBrej).1
    (by decide) (by decide)
  exact ⟨h.1, h.2.1, h.2.2.1, h.2.2.2.1, h.2.2.2.2.1,
    h.2.2.2.2.2 (by decide)⟩

/-- C7.  Reject answers the NotFound error exactly when no row with this id
belongs to the acting mentor in status pending (a nonexistent record and an
already-processed one surface identically); on that failure the store is
unchanged; on success the single matching row — pending and owned by the
mentor — turns rejected with a fresh updatedAt and every other row is
untouched. -/
theorem reject_conditional_update (now : Nat) (auth : UserRow) (rid : Nat)
    (db : DB) (hrole : auth.role = "mentor")
    (hnd : (db.requests.map MRequest.id).Nodup) :
    ((reject now auth rid db).1 = Except.error ApiError.notFoundOrProcessed ↔
      ¬ ∃ q ∈ db.requests, q.id = rid ∧ q.mentorId = auth.id ∧
        q.status = Status.pending) ∧
    ApiError.notFoundOrProcessed.isNotFound = true ∧
    ((reject now auth rid db).1 = Except.error ApiError.notFoundOrProcessed →
      (reject now auth rid db).2 = db) ∧
    (∀ r, (reject now auth rid db).1 = Except.ok r →
      ∃ q ∈ db.requests, q.id = rid ∧ q.mentorId = auth.id ∧
        q.status = Status.pending ∧
        r = { q with status := Status.rejected, updatedAt := now } ∧
        (reject now auth rid db).2.requests =
          (db.requests.map fun p => if p.id == rid then r else p)) := by
  by_cases hz : sqlChanges (rejectPred rid auth.id) db.requests = 0
  · have heq := reject_zero_changes now auth rid db hrole hz
    have hno : ¬ ∃ q ∈ db.requests, q.id = rid ∧ q.mentorId = auth.id ∧
        q.status = Status.pending := by
      rintro ⟨q, hq, hqid, hqm, hqs⟩
      apply List.countP_eq_zero.mp hz q hq
      unfold rejectPred
      simp [hqid, hqm, hqs]
    refine ⟨iff_of_true (by rw [heq]) hno, rfl, fun _ => by rw [heq], ?_⟩
    intro r hr
    rw [heq] at hr
    simp at hr
  · obtain ⟨q0, hq0l, hq0p⟩ := sqlChanges_ne_zero_iff.mp hz
    have hid : ∀ p, rejectPred rid auth.id p = true → p.id = rid := by
      intro p hp
      unfold rejectPred at hp
      simp only [Bool.and_eq_true, beq_iff_eq] at hp
      exact hp.1.1
    obtain ⟨hmap, hfind2⟩ :=
      upd_unique_map now Status.rejected hnd hid hq0l hq0p
    have hq0props : q0.id = rid ∧ q0.mentorId = auth.id ∧
        q0.status = Status.pending := by
      unfold rejectPred at hq0p
      simp only [Bool.and_eq_true, beq_iff_eq] at hq0p
      exact ⟨hq0p.1.1, hq0p.1.2, hq0p.2⟩
    have hre : reject now auth rid db =
        (Except.ok { q0 with status := Status.rejected, updatedAt := now },
         { db with requests := (sqlUpdateStatus now (rejectPred rid auth.id)
           Status.rejected db.requests) }) := by
      unfold reject
      rw [if_neg (by simp [hrole]), if_neg (by simpa using hz), hfind2]
    refine ⟨iff_of_false (by rw [hre]; simp)
      (fun hn => hn ⟨q0, hq0l, hq0props.1, hq0props.2.1, hq0props.2.2⟩),
      rfl, ?_, ?_⟩
    · intro hc
      rw [hre] at hc
      simp at hc
    · intro r hr
      rw [hre] at hr
      simp only [Except.ok.injEq] at hr
      refine ⟨q0, hq0l, hq0props.1, hq0props.2.1, hq0props.2.2,
        hr.symm, ?_⟩
      rw [hre]
      dsimp only
      rw [hmap, hr]

/-- C7 (witness).  Rejecting the nonexistent request 5 fails with NotFound
and leaves the store unchanged. -/
theorem reject_conditional_update_witness :
    (reject 7 mentor9 5 dbAccept).1 =
      Except.error ApiError.notFoundOrProcessed ∧
    (reject 7 mentor9 5 dbAccept).2 = dbAccept := by
  have h := reject_conditional_update 7 mentor9 5 dbAccept rfl (by decide)
  have he : (reject 7 mentor9 5 dbAccept).1 =
      Except.error ApiError.notFoundOrProcessed := h.1.mpr (by decide)
  exact ⟨he, h.2.2.1 he⟩

lemma acceptRow_id (now : Nat) (mid rid : Nat) (p : MRequest) :
    (acceptRow now mid rid p).id = p.id := by
  unfold acceptRow
  split
  · rfl
  · split <;> rfl

lemma get_map_of_map_eq {l l2 : List MRequest} {g : MRequest → MRequest}
    (hmap : l2 = l.map g) (i : Nat) (h1 : i < l.length)
    (h2 : i < l2.length) :
    l2.get ⟨i, h2⟩ = g (l.get ⟨i, h1⟩) := by
  subst hmap
  simp [List.getElem_map]

/-- C1.  A successful accept call: the target row existed pending for the
acting mentor and is returned accepted with a fresh updatedAt; positionally
over the table, the target row becomes accepted, every other pending row of
the same mentor becomes rejected, rows of other mentors are untouched, and
so are the mentor's rows that were not pending. -/
theorem accept_cascades (now : Nat) (auth : UserRow) (rid : Nat) (db : DB)
    (r : MRequest) (db1 : DB)
    (hnd : (db.requests.map MRequest.id).Nodup)
    (h : accept now auth rid db = (Except.ok r, db1)) :
    (∃ q ∈ db.requests, q.id = rid ∧ q.mentorId = auth.id ∧
      q.status = Status.pending ∧
      r = { q with status := Status.accepted, updatedAt := now }) ∧
    db1.users = db.users ∧
    db1.requests.length = db.requests.length ∧
    (∀ i (h1 : i < db.requests.length) (h2 : i < db1.requests.length),
      ((db.requests.get ⟨i, h1⟩).id = rid →
        db1.requests.get ⟨i, h2⟩ =
          { db.requests.get ⟨i, h1⟩ with
            status := Status.accepted, updatedAt := now }) ∧
      ((db.requests.get ⟨i, h1⟩).id ≠ rid →
        (db.requests.get ⟨i, h1⟩).mentorId = auth.id →
        (db.requests.get ⟨i, h1⟩).status = Status.pending →
        db1.requests.get ⟨i, h2⟩ =
          { db.requests.get ⟨i, h1⟩ with
            status := Status.rejected, updatedAt := now }) ∧
      ((db.requests.get ⟨i, h1⟩).mentorId ≠ auth.id →
        db1.requests.get ⟨i, h2⟩ = db.requests.get ⟨i, h1⟩) ∧
      ((db.requests.get ⟨i, h1⟩).id ≠ rid →
        (db.requests.get ⟨i, h1⟩).status ≠ Status.pending →
        db1.requests.get ⟨i, h2⟩ = db.requests.get ⟨i, h1⟩)) := by
  obtain ⟨hrole, q0, hq0find, hq0st, hdb1, hfind⟩ := accept_ok_parts h
  have hq0mem : q0 ∈ db.requests := List.mem_of_find?_eq_some hq0find
  have hq0props : q0.id = rid ∧ q0.mentorId = auth.id := by
    have hs := List.find?_some hq0find
    simpa using hs
  have hmapped : acceptUpdated now auth.id rid db.requests =
      db.requests.map (acceptRow now auth.id rid) :=
    acceptUpdated_eq_map now auth.id rid db.requests
  rw [hmapped, find?_id_map (acceptRow_id now auth.id rid),
      find?_id_of_mem hnd hq0mem hq0props.1] at hfind
  simp only [Option.map_some'] at hfind
  injection hfind with hfr
  have hr : r = { q0 with status := Status.accepted, updatedAt := now } := by
    rw [← hfr]
    unfold acceptRow
    rw [if_pos (by simp [hq0props.1])]
  subst hdb1
  refine ⟨⟨q0, hq0mem, hq0props.1, hq0props.2, hq0st, hr⟩, rfl, ?_, ?_⟩
  · dsimp only
    rw [hmapped, List.length_map]
  · intro i h1 h2
    have hget : ({ db with requests := (acceptUpdated now auth.id rid
          db.requests) } : DB).requests.get ⟨i, h2⟩ =
        acceptRow now auth.id rid (db.requests.get ⟨i, h1⟩) :=
      get_map_of_map_eq hmapped i h1 h2
    rw [hget]
    have hqmem : db.requests.get ⟨i, h1⟩ ∈ db.requests :=
      List.get_mem db.requests i h1
    refine ⟨?_, ?_, ?_, ?_⟩
    · intro hqid
      unfold acceptRow
      rw [if_pos (by simp only [beq_iff_eq]; exact hqid)]
    · intro hqid hqm hqs
      unfold acceptRow
      rw [if_neg (by simp only [beq_iff_eq]; exact hqid),
        if_pos (by simp only [Bool.and_eq_true, beq_iff_eq]; exact ⟨hqm, hqs⟩)]
    · intro hqm
      have hqid : (db.requests.get ⟨i, h1⟩).id ≠ rid := by
        intro hc
        have hpq : db.requests.get ⟨i, h1⟩ = q0 :=
          nodup_id_unique hnd hqmem hq0mem (hc.trans hq0props.1.symm)
        exact hqm (hpq ▸ hq0props.2)
      unfold acceptRow
      rw [if_neg (by simp only [beq_iff_eq]; exact hqid),
        if_neg (by
          simp only [Bool.and_eq_true, beq_iff_eq, not_and]
          exact fun hA => absurd hA hqm)]
    · intro hqid hqs
      unfold acceptRow
      rw [if_neg (by simp only [beq_iff_eq]; exact hqid),
        if_neg (by
          simp only [Bool.and_eq_true, beq_iff_eq, not_and]
          exact fun _ => hqs)]

/-- C1 (witness).  Accepting request 1 of dbAccept succeeds: request 1 was
pending for mentor 9 and is returned accepted with updatedAt 7. -/
theorem accept_cascades_witness :
    ∃ q ∈ dbAccept.requests, q.id = 1 ∧ q.mentorId = mentor9.id ∧
      q.status = Status.pending ∧
      rowAcc = { q with status := Status.accepted, updatedAt := 7 } := by
  exact (accept_cascades 7 mentor9 1 dbAccept rowAcc dbAccepted
    (by decide) (by decide)).1

/-- C8 (counterexample).  The claim says every element returned by the
outgoing list carries all attributes, message included; the route maps each
row to only id, mentorId, menteeId and status, so the element returned for
recHello (message "hello") has no message key at all. -/
theorem outgoing_missing_message :
    listOutgoing mentee5 none dbHello = Except.ok [outgoingItem recHello] ∧
    recHello.message = "hello" ∧
    (outgoingItem recHello).lookup "message" = none := by
  decide

/-- C8 (amended).  For a mentee actor the outgoing list succeeds and
returns, newest first by creation time, exactly the rows whose menteeId is
the actor's (filtered by the optional status), each serialised as an object
carrying id, mentorId, menteeId and status — but no message. -/
theorem outgoing_list_shape (auth : UserRow) (statusFilter : Option Status)
    (db : DB) (items : List (List (String × JValue)))
    (hrole : auth.role = "mentee")
    (h : listOutgoing auth statusFilter db = Except.ok items) :
    ∃ rows, rowsOutgoing auth statusFilter db = Except.ok rows ∧
      items = rows.map outgoingItem ∧
      rows.Perm (db.requests.filter fun r =>
        r.menteeId == auth.id && statusFilterOk statusFilter r) ∧
      List.Sorted newerFirst rows ∧
      (∀ r ∈ rows,
        (outgoingItem r).lookup "id" = some (JValue.num r.id) ∧
        (outgoingItem r).lookup "mentorId" = some (JValue.num r.mentorId) ∧
        (outgoingItem r).lookup "menteeId" = some (JValue.num r.menteeId) ∧
        (outgoingItem r).lookup "status" =
          some (JValue.str (statusText r.status)) ∧
        (outgoingItem r).lookup "message" = none) := by
  have hrows : rowsOutgoing auth statusFilter db =
      Except.ok (sortNewestFirst (db.requests.filter fun r =>
        r.menteeId == auth.id && statusFilterOk statusFilter r)) := by
    unfold rowsOutgoing
    rw [if_neg (by simp [hrole])]
  have hlo : listOutgoing auth statusFilter db =
      Except.ok ((sortNewestFirst (db.requests.filter fun r =>
        r.menteeId == auth.id && statusFilterOk statusFilter r)).map
        outgoingItem) := by
    unfold listOutgoing
    rw [hrows]
  rw [hlo] at h
  injection h with hitems
  refine ⟨_, hrows, hitems.symm, ?_, ?_, ?_⟩
  · exact List.perm_insertionSort newerFirst _
  · exact List.sorted_insertionSort newerFirst _
  · intro r _
    exact ⟨rfl, rfl, rfl, rfl, rfl⟩

/-- C8 (witness).  The amended statement on the concrete store dbHello. -/
theorem outgoing_list_shape_witness :
    listOutgoing mentee5 none dbHello = Except.ok [outgoingItem recHello] ∧
    ∃ rows, rowsOutgoing mentee5 none dbHello = Except.ok rows ∧
      [outgoingItem recHello] = rows.map outgoingItem ∧
      rows.Perm (dbHello.requests.filter fun r =>
        r.menteeId == mentee5.id && statusFilterOk none r) ∧
      List.Sorted newerFirst rows ∧
      (∀ r ∈ rows,
        (outgoingItem r).lookup "id" = some (JValue.num r.id) ∧
        (outgoingItem r).lookup "mentorId" = some (JValue.num r.mentorId) ∧
        (outgoingItem r).lookup "menteeId" = some (JValue.num r.menteeId) ∧
        (outgoingItem r).lookup "status" =
          some (JValue.str (statusText r.status)) ∧
        (outgoingItem r).lookup "message" = none) := by
  refine ⟨by decide, ?_⟩
  exact outgoing_list_shape mentee5 none dbHello [outgoingItem recHello]
    rfl (by decide)

end Tortee
